import Mathlib

/-!
Verification of the evaluation orchestration engine of the evalplus
repository (src/evalplus/evaluate.py and src/eval_result/data_handler.py)
against its natural language specification.  The Python source is shallowly
embedded: pure fragments become Lean functions, the file system and the
interactive prompt become explicit state and parameters, and the external
collaborators (untrusted_check, trusted_exec, the sandboxed executor) become
function parameters, so that theorems quantifying over them express that a
code path never invokes them.
-/

namespace EvalPlus

/-- Modelled from the spec: the status string the external execution
collaborator returns for a fully passing run (the constant SUCCESS imported
from evalplus.eval, which is outside src). -/
def SUCCESS : String := "pass"

/-- Result type of evaluate.py line 32: 1st item the status, 2nd item the
detailed pass or fail boolean for each input. -/
abbrev Result := String × List Bool

/-- Aggregated per task entry of the results document
(evaluate.py lines 188 to 194): candidate count, base results in order,
plus results in order. -/
structure AggregatedTaskResult where
  nfiles : Nat
  base : List Result
  plus : List Result
deriving DecidableEq

/-! ## data_handler.py -/

/-- Values of the dynamic language, as far as data_handler.py needs them:
a plain string or the imported json module. -/
inductive PyVal where
  | str : String → PyVal
  | jsonModule : PyVal
deriving DecidableEq

/-- Attribute lookup of the dynamic language: the json module provides a
load attribute; a plain string value has no attribute named load, so the
lookup raises AttributeError. -/
def getattr : PyVal → String → Except String PyVal
  | PyVal.jsonModule, "load" => Except.ok PyVal.jsonModule
  | PyVal.jsonModule, a => Except.error ("AttributeError: module json has no attribute " ++ a)
  | PyVal.str _, a => Except.error ("AttributeError: str object has no attribute " ++ a)

/-- Name resolution inside the body of get_failed_cases_from_json
(data_handler.py line 12): the function parameter is named json, so inside
the body the name json denotes the parameter (the path string), shadowing
the module imported at the top of the file. -/
def jsonNameInBody (jsonParam : String) : PyVal := PyVal.str jsonParam

/-- Embedding of get_failed_cases_from_json (data_handler.py lines 12 to 20).
The call json.load(json_file) first evaluates the attribute load on the
value that the name json denotes in the body.  fileData stands for the
parsed eval mapping that a successful load would produce. -/
def get_failed_cases_from_json (jsonArg : String)
    (fileData : List (String × AggregatedTaskResult)) : Except String (List String) :=
  match getattr (jsonNameInBody jsonArg) "load" with
  | Except.error e => Except.error e
  | Except.ok _ =>
      Except.ok ((fileData.filter (fun c =>
        ((c.2.base.headD (SUCCESS, [])).1 == "failed")
          || ((c.2.plus.headD (SUCCESS, [])).1 == "failed"))).map (fun c => c.1))

/-- Embedding of generate_failed_cases (data_handler.py lines 22 to 31):
calls get_failed_cases_from_json and, on success, writes one output file
whose name is the output argument with the failed cases suffix and whose
lines are the failed cases.  The returned pair is the written file. -/
def generate_failed_cases (jsonArg outputArg : String)
    (fileData : List (String × AggregatedTaskResult)) :
    Except String (String × List String) :=
  match get_failed_cases_from_json jsonArg fileData with
  | Except.error e => Except.error e
  | Except.ok cases => Except.ok (outputArg ++ "-failed-cases.txt", cases)

/-- Embedding of get_failed_cases_from_txt (data_handler.py lines 5 to 10):
the file is a list of lines, each line is stripped. -/
def get_failed_cases_from_txt (lines : List String) : List String :=
  lines.map (fun line => line.trim)

/-- Embedding of compare_two_failed_cases (data_handler.py lines 33 to 53):
read both files, form the two sets, and write the two asymmetric
differences, one to each output file.  Per the spec the line order of the
output files is unspecified, so each output file is its set of lines. -/
def compare_two_failed_cases (file1 file2 : List String) :
    Finset String × Finset String :=
  let f1_set := (get_failed_cases_from_txt file1).toFinset
  let f2_set := (get_failed_cases_from_txt file2).toFinset
  (f1_set \ f2_set, f2_set \ f1_set)

/-! ## evaluate.py: worker count -/

/-- Worker count resolution of evaluate_humaneval (evaluate.py lines 108 to
111): the parallel flag verbatim when given, otherwise
max(1, cpu_count() // 2). -/
def resolve_n_workers (parallel : Option Int) (cpu_count : Nat) : Int :=
  match parallel with
  | none => max 1 ((cpu_count : Int) / 2)
  | some p => p

/-! ## evaluate.py: ground truth oracle cache -/

/-- Problem record of the data model: loaded from the dataset collaborator,
never mutated.  Inputs and outputs of the executed programs are opaque and
are represented by strings. -/
structure Problem where
  task_id : String
  prompt : String
  canonical_solution : String
  entry_point : String
  base_input : List String
  plus_input : List String
  atol : ℚ
deriving DecidableEq

/-- Oracle record built by get_groundtruth: expected outputs and recorded
execution time for the base suite and for the plus suite. -/
structure Oracle where
  base : List String
  base_time : ℚ
  plus : List String
  plus_time : ℚ
deriving DecidableEq

/-- Signature of the external trusted_exec collaborator
(evalplus.gen.util, outside src): given program code, an input suite and an
entry point it returns the outputs and the recorded execution time. -/
abbrev TrustedExec := String → List String → String → List String × ℚ

/-- The oracle cache directory as a partial map from hash to stored oracle
mapping, modelling the files CACHE_DIR/hash.pkl; the pickle round trip is
assumed to be the identity. -/
abbrev OracleCache := String → Option (List (String × Oracle))

/-- Oracle computation for one problem, as performed by the cache miss
branch of get_groundtruth (evaluate.py lines 46 to 60): run the canonical
solution appended to the prompt on the base inputs and on the plus inputs,
recording the time of each suite. -/
def computeOracle (texec : TrustedExec) (problem : Problem) : Oracle :=
  let rbase := texec (problem.prompt ++ problem.canonical_solution)
    problem.base_input problem.entry_point
  let rplus := texec (problem.prompt ++ problem.canonical_solution)
    problem.plus_input problem.entry_point
  { base := rbase.1, base_time := rbase.2, plus := rplus.1, plus_time := rplus.2 }

/-- Embedding of get_groundtruth (evaluate.py lines 35 to 66).  If the cache
file addressed by the hash exists its deserialized contents are returned and
the cache is untouched; otherwise the expected output of every problem is
computed with trusted_exec and the full mapping is written to the cache file
before it is returned.  The returned pair is (returned mapping, cache after
the call). -/
def get_groundtruth (texec : TrustedExec) (cache : OracleCache)
    (problems : List (String × Problem)) (hashcode : String) :
    List (String × Oracle) × OracleCache :=
  match cache hashcode with
  | some m => (m, cache)
  | none =>
      let expected_output :=
        problems.map (fun tp => (tp.1, computeOracle texec tp.2))
      (expected_output,
        fun h => if h = hashcode then some expected_output else cache h)

/-! ## evaluate.py: dispatch and aggregation -/

/-- Candidate sample streamed from load_solutions (outside src): task id,
unique run identifier and either a full solution or a completion
fragment. -/
structure Sample where
  task_id : String
  identifier : String
  solution : Option String
  completion : String
deriving DecidableEq

/-- Solution selection of evaluate.py lines 147 to 151: the solution field
of the sample when present, otherwise the problem prompt with the
completion appended. -/
def pickSolution (problems : String → Problem) (s : Sample) : String :=
  match s.solution with
  | some sol => sol
  | none => (problems s.task_id).prompt ++ s.completion

/-- One submitted check, the args tuple of evaluate.py lines 153 to 161:
completion index taken from the per task counter, task key, solution text
and run identifier. -/
structure Submission where
  completion_id : Nat
  task_id : String
  solution : String
  identifier : String
deriving DecidableEq

/-- Submission loop of evaluate.py lines 145 to 164, threading the per task
Counter: each sample is submitted with the current counter value of its
task as completion index, and that counter value is then incremented. -/
def submitAux (problems : String → Problem) :
    List Sample → (String → Nat) → List Submission
  | [], _ => []
  | s :: rest, cnt =>
      { completion_id := cnt s.task_id, task_id := s.task_id,
        solution := pickSolution problems s, identifier := s.identifier }
        :: submitAux problems rest
          (fun u => if u = s.task_id then cnt u + 1 else cnt u)

/-- All submissions of a run, with every per task counter starting at 0. -/
def submissions (problems : String → Problem) (samples : List Sample) :
    List Submission :=
  submitAux problems samples (fun _ => 0)

/-- Signature of the external untrusted_check collaborator (evalplus.eval,
outside src): solution text, input suite, entry point, expected outputs,
tolerance, reference time and the fast check flag. -/
abbrev UntrustedCheck :=
  String → List String → String → List String → ℚ → ℚ → Bool → Result

/-- CheckResult record returned by check_correctness: completion index,
task id, run identifier, base result, and the plus result when the run is
not base only. -/
structure CheckResult where
  completion_id : Nat
  task_id : String
  identifier : String
  base : Result
  plus : Option Result
deriving DecidableEq

/-- Embedding of check_correctness (evaluate.py lines 69 to 104): always
checks the base suite, checks the plus suite unless base_only, and carries
the completion index, the task id of the problem record and the run
identifier back to the dispatcher. -/
def check_correctness (uc : UntrustedCheck) (completion_id : Nat)
    (problem : Problem) (solution : String) (expected : Oracle)
    (base_only fast_check : Bool) (identifier : String) : CheckResult :=
  { completion_id := completion_id
    task_id := problem.task_id
    identifier := identifier
    base := uc solution problem.base_input problem.entry_point expected.base
      problem.atol expected.base_time fast_check
    plus :=
      if base_only then none
      else some (uc solution problem.plus_input problem.entry_point
        expected.plus problem.atol expected.plus_time fast_check) }

/-- Results of all submitted checks in submission order: each submission is
one check_correctness invocation (evaluate.py line 162). -/
def runChecks (uc : UntrustedCheck) (problems : String → Problem)
    (expected : String → Oracle) (base_only fast_check : Bool)
    (subs : List Submission) : List CheckResult :=
  subs.map (fun s => check_correctness uc s.completion_id
    (problems s.task_id) s.solution (expected s.task_id) base_only
    fast_check s.identifier)

/-- Accumulated result list of one task: completed check results are
appended to the list of their task in completion order (evaluate.py line
183), so for an arrival order given as a list the accumulated list of a
task is the arrival list filtered to that task. -/
def taskResults (arrival : List CheckResult) (t : String) :
    List CheckResult :=
  arrival.filter (fun r => r.task_id == t)

/-- Sort of evaluate.py line 187: sort a task result list by the
completion_id key. -/
def sortByCid (l : List CheckResult) : List CheckResult :=
  l.mergeSort (fun a b => a.completion_id ≤ b.completion_id)

/-- Aggregation of evaluate.py lines 185 to 194 for one task: candidate
count, base results of the sorted list, and plus results of the sorted list
unless the run is base only. -/
def aggregate (base_only : Bool) (arrival : List CheckResult) (t : String) :
    AggregatedTaskResult :=
  let task_results := sortByCid (taskResults arrival t)
  { nfiles := task_results.length
    base := task_results.map (fun r => r.base)
    plus :=
      if base_only then []
      else task_results.map (fun r => (r.plus).getD (SUCCESS, [])) }

/-! ## evaluate.py: dispatcher invariants -/

/-- Distinct task keys of the per task Counter after the submission loop:
a key exists exactly for the tasks that occur among the samples, in first
occurrence order. -/
def counterKeys (samples : List Sample) : List String :=
  (samples.map (fun s => s.task_id)).dedup

/-- The remaining set of evaluate.py line 152: the set of run identifiers
added during submission (set semantics, duplicates collapse). -/
def remainings (samples : List Sample) : List String :=
  (samples.map (fun s => s.identifier)).dedup

/-- The two assertions of evaluate.py lines 166 to 167, the fatal guard of
the dispatcher: the run proceeds only when the number of submitted samples
equals the size of the remaining identifier set and the number of distinct
tasks with a candidate equals the number of problems. -/
def dispatchAsserts (samples : List Sample) (problem_ids : List String) :
    Bool :=
  (samples.length == (remainings samples).length)
    && ((counterKeys samples).length == problem_ids.length)

/-! ## evaluate.py: pass at k -/

/-- Per task candidate counts, the numpy array total of evaluate.py line
215. -/
def totalOf (evals : List AggregatedTaskResult) : List Nat :=
  evals.map (fun r => r.nfiles)

/-- Per task base success count of evaluate.py line 220: the number of
base results whose status is SUCCESS. -/
def base_correct_of (evals : List AggregatedTaskResult) : List Nat :=
  evals.map (fun r => r.base.countP (fun x => x.1 == SUCCESS))

/-- Success predicate of the plus pass (evaluate.py line 226): the chained
comparison requires that the plus status equals the base status and that
the base status equals SUCCESS, at the same completion index. -/
def plusAndBaseSuccess (p b : Result) : Bool :=
  (p.1 == b.1) && (b.1 == SUCCESS)

/-- Per task success count of the plus pass (evaluate.py lines 223 to
230), pairing plus and base results by completion index. -/
def new_correct_task (r : AggregatedTaskResult) : Nat :=
  (r.plus.zip r.base).countP (fun pb => plusAndBaseSuccess pb.1 pb.2)

/-- The new_correct list of evaluate.py lines 219 to 230: a task
contributes its plus success count exactly when its plus result list is
nonempty. -/
def new_correct_of (evals : List AggregatedTaskResult) : List Nat :=
  (evals.filter (fun r => !r.plus.isEmpty)).map new_correct_task

/-- Modelled from the spec: the external estimate_pass_at_k collaborator
(evalplus.eval, outside src) returns, per problem, the unbiased pass at k
estimate, which for n candidates of which c are correct is
1 - C(n - c, k) / C(n, k). -/
def estimator (n c k : Nat) : ℚ :=
  1 - ((n - c).choose k : ℚ) / (n.choose k : ℚ)

/-- Per problem estimates for one k, pairing each candidate count with the
matching correct count. -/
def estimate_pass_at_k (total correct : List Nat) (k : Nat) : List ℚ :=
  (total.zip correct).map (fun nc => estimator nc.1 nc.2 k)

/-- Mean of a list of rationals, the numpy mean of evaluate.py lines 234
and 244. -/
def npMean (l : List ℚ) : ℚ := l.sum / l.length

/-- Minimum of a numpy array; numpy raises on an empty array, hence the
none case. -/
def npMin (l : List Nat) : Option Nat := l.min?

/-- Base pass at k of evaluate.py lines 233 to 237: for k among 1, 10 and
100, the mean estimate over all problems is included exactly when the
minimum candidate count is at least k; with no tasks the minimum is
undefined and numpy raises, hence none. -/
def pass_at_k_base (total correct : List Nat) : Option (List (Nat × ℚ)) :=
  match npMin total with
  | none => none
  | some m =>
      some ([1, 10, 100].filterMap (fun k =>
        if k ≤ m then some (k, npMean (estimate_pass_at_k total correct k))
        else none))

/-- Plus pass at k of evaluate.py lines 243 to 247: k is included exactly
when every candidate count is at least k. -/
def pass_at_k_plus (total new_correct : List Nat) : List (Nat × ℚ) :=
  [1, 10, 100].filterMap (fun k =>
    if total.all (fun n => k ≤ n)
    then some (k, npMean (estimate_pass_at_k total new_correct k))
    else none)

/-- Guard of evaluate.py line 241: the plus section is computed only when
the new_correct list is nonempty. -/
def plus_pass_section (total new_correct : List Nat) :
    Option (List (Nat × ℚ)) :=
  if new_correct.isEmpty then none else some (pass_at_k_plus total new_correct)

/-! ## evaluate.py: result store and resume -/

/-- Results document of evaluate.py lines 131 to 135 and 185 to 194: run
date, problem set hash and the per task aggregated results. -/
structure ResultsDoc where
  date : String
  hash : String
  eval : List (String × AggregatedTaskResult)
deriving DecidableEq

/-- Modelled from the spec: compatible_eval_result (evalplus.eval, outside
src) adapts a previously stored document; per the spec the prior result
file is loaded and returned immediately, so on documents of the present
shape it is the identity. -/
def compatible_eval_result (r : ResultsDoc) : ResultsDoc := r

/-- Fresh evaluation branch of evaluate_humaneval (evaluate.py lines 125
to 194): obtain the ground truth through the oracle cache, run one check
per submitted sample, and aggregate per distinct task. -/
def computeResults (uc : UntrustedCheck) (texec : TrustedExec)
    (cache : OracleCache) (problems : String → Problem)
    (problems_list : List (String × Problem)) (samples : List Sample)
    (date problem_hash : String) (base_only fast_check : Bool) :
    ResultsDoc :=
  let expected_map := (get_groundtruth texec cache problems_list
    problem_hash).1
  let expected := fun tid => (expected_map.lookup tid).getD
    { base := [], base_time := 0, plus := [], plus_time := 0 }
  let arrival := runChecks uc problems expected base_only fast_check
    (submissions problems samples)
  { date := date, hash := problem_hash,
    eval := (counterKeys samples).map
      (fun tid => (tid, aggregate base_only arrival tid)) }

/-- Branch of evaluate_humaneval lines 119 to 125: when a result file
exists at the derived result path and the force flag is not set, the
stored document is loaded and adapted; otherwise the results are computed
afresh. -/
def evaluate_results (stored : Option ResultsDoc) (force : Bool)
    (uc : UntrustedCheck) (texec : TrustedExec) (cache : OracleCache)
    (problems : String → Problem)
    (problems_list : List (String × Problem)) (samples : List Sample)
    (date problem_hash : String) (base_only fast_check : Bool) :
    ResultsDoc :=
  match stored, force with
  | some r, false => compatible_eval_result r
  | _, _ => computeResults uc texec cache problems problems_list samples
      date problem_hash base_only fast_check

/-- The pass at k statistics of evaluate.py lines 214 to 248 computed from
a results document: the base section and the guarded plus section. -/
def statsOf (results : ResultsDoc) :
    Option (List (Nat × ℚ)) × Option (List (Nat × ℚ)) :=
  let evals := results.eval.map (fun te => te.2)
  (pass_at_k_base (totalOf evals) (base_correct_of evals),
    plus_pass_section (totalOf evals) (new_correct_of evals))

/-! ## evaluate.py: forced overwrite and backup -/

/-- The file system as a partial map from path to file content. -/
abbrev FileSys := String → Option String

/-- The path with a number of bak suffixes appended. -/
def appendBaks (path : String) : Nat → String
  | 0 => path
  | n + 1 => appendBaks path n ++ ".bak"

/-- Backup path search of evaluate.py lines 204 to 206: starting from the
result path with one bak suffix, keep appending the suffix while a file
exists at the candidate path.  The fuel bounds the loop; the loop of the
source terminates exactly when some candidate path is free. -/
def findBackupPath (isfile : String → Bool) : String → Nat → Option String
  | q, 0 => if isfile q then none else some q
  | q, fuel + 1 =>
      if isfile q then findBackupPath isfile (q ++ ".bak") fuel else some q

/-- Forced overwrite path of evaluate_humaneval lines 196 to 212, entered
when the result file exists and the force flag is set, with decision the
answer the operator gives to the prompt: on y the existing file is renamed
in full to the first free backup path and the freshly computed results are
then written at the result path (line 210 writes because the rename freed
it); on any other final answer nothing is renamed and, the result file
still existing, nothing is written. -/
def forcedOverwrite (fs : FileSys) (result_path : String)
    (decision : String) (fresh : String) (fuel : Nat) : Option FileSys :=
  if decision = "y" then
    match findBackupPath (fun q => (fs q).isSome) (result_path ++ ".bak")
        fuel with
    | none => none
    | some new_path =>
        let renamed : FileSys := fun x =>
          if x = new_path then fs result_path
          else if x = result_path then none
          else fs x
        some (fun x => if x = result_path then some fresh else renamed x)
  else some fs

/-! ## Witness fixtures -/

/-- Concrete trusted executor used by witnesses: outputs are the inputs with
a marker appended, time is 1. -/
def texecW : TrustedExec :=
  fun _code inputs _entry => (inputs.map (fun i => i ++ "-out"), 1)

/-- Concrete problem used by witnesses. -/
def problemW : Problem :=
  { task_id := "T0", prompt := "def f", canonical_solution := "ref",
    entry_point := "f", base_input := ["a"], plus_input := ["a", "b"],
    atol := 0 }

/-- Concrete problem map used by witnesses: the record of a task key
carries that key as its task id. -/
def problemsW : String → Problem :=
  fun tid => { problemW with task_id := tid }

/-- Concrete oracle map used by witnesses. -/
def expectedW : String → Oracle :=
  fun _ => { base := ["a-out"], base_time := 1,
             plus := ["a-out", "b-out"], plus_time := 1 }

/-- Concrete untrusted checker used by witnesses: succeeds exactly when the
solution text is ok. -/
def ucW : UntrustedCheck :=
  fun solution inputs _entry _expected _atol _time _fast =>
    (if solution = "ok" then SUCCESS else "failed", inputs.map (fun _ => solution = "ok"))

/-- Concrete samples used by witnesses: three candidates over two tasks. -/
def samplesW : List Sample :=
  [ { task_id := "T1", identifier := "f1", solution := some "ok",
      completion := "" },
    { task_id := "T2", identifier := "f2", solution := some "bad",
      completion := "" },
    { task_id := "T1", identifier := "f3", solution := some "ok",
      completion := "" } ]

/-- Concrete file system used by witnesses: a result file with content old
and one existing backup. -/
def fsW : FileSys :=
  fun x => if x = "res" then some "old"
    else if x = "res.bak" then some "b1" else none

/-! ## Claim theorems (first group) -/

/-- C10: for every input path, get_failed_cases_from_json raises an
exception before returning any value, because the parameter named json
shadows the imported json module, so the attribute lookup load is performed
on the path string; consequently generate_failed_cases never writes its
failed cases output file. -/
theorem c10_json_shadowing (jsonArg outputArg : String)
    (fileData : List (String × AggregatedTaskResult)) :
    (∃ e, get_failed_cases_from_json jsonArg fileData = Except.error e)
      ∧ ∀ w, generate_failed_cases jsonArg outputArg fileData ≠ Except.ok w := by
  refine ⟨⟨"AttributeError: str object has no attribute load", rfl⟩, ?_⟩
  intro w h
  simp [generate_failed_cases, get_failed_cases_from_json, jsonNameInBody, getattr] at h

/-- C7: the failure set differ writes exactly two output files whose line
sets are the asymmetric differences of the stripped identifier sets of the
two input files (duplicates collapsed, order unspecified), and swapping the
two input arguments exactly swaps the contents of the two output files. -/
theorem c7_differ_sets_and_swap (file1 file2 : List String) :
    (∀ x, x ∈ (compare_two_failed_cases file1 file2).1 ↔
      (x ∈ get_failed_cases_from_txt file1 ∧ x ∉ get_failed_cases_from_txt file2))
      ∧ (∀ x, x ∈ (compare_two_failed_cases file1 file2).2 ↔
        (x ∈ get_failed_cases_from_txt file2 ∧ x ∉ get_failed_cases_from_txt file1))
      ∧ compare_two_failed_cases file2 file1 =
        ((compare_two_failed_cases file1 file2).2,
          (compare_two_failed_cases file1 file2).1) := by
  refine ⟨?_, ?_, rfl⟩ <;> intro x <;>
    simp [compare_two_failed_cases, Finset.mem_sdiff, List.mem_toFinset]

/-- C8 counterexample: with an explicit override of 0 the resolved worker
count is 0, refuting that the resolved worker count is at least 1 in every
case. -/
theorem c8_counterexample : resolve_n_workers (some 0) 8 = 0 ∧
    ¬ (1 ≤ resolve_n_workers (some 0) 8) := by
  constructor <;> decide

/-- C8 amended: the resolved worker count is the explicit override taken
verbatim when one is given (even when it is less than 1), and otherwise it
is the maximum of 1 and half of the available processing units, hence at
least 1 on the default branch. -/
theorem c8_amended_resolution (p : Int) (cpu_count : Nat) :
    resolve_n_workers (some p) cpu_count = p
      ∧ resolve_n_workers none cpu_count = max 1 ((cpu_count : Int) / 2)
      ∧ 1 ≤ resolve_n_workers none cpu_count := by
  refine ⟨rfl, rfl, ?_⟩
  exact le_max_left _ _

/-- C4: on a cache hit get_groundtruth returns the deserialized cache
contents unchanged for every execution collaborator (hence it executes no
solution) and leaves the cache untouched; on a cache miss it computes, for
every problem, the canonical solution outputs and times on both suites and
writes the complete mapping to the cache file before returning it; and a
reload from the same hash, with any execution collaborator, yields exactly
the mapping the first call returned. -/
theorem c4_groundtruth_cache (texec texecReload : TrustedExec)
    (cache : OracleCache) (problems : List (String × Problem))
    (hashcode : String) :
    (∀ m, cache hashcode = some m →
      get_groundtruth texec cache problems hashcode = (m, cache))
      ∧ (cache hashcode = none →
        (get_groundtruth texec cache problems hashcode).1 =
          problems.map (fun tp => (tp.1, computeOracle texec tp.2))
        ∧ (get_groundtruth texec cache problems hashcode).2 hashcode =
          some (get_groundtruth texec cache problems hashcode).1)
      ∧ (get_groundtruth texecReload
          (get_groundtruth texec cache problems hashcode).2 problems
          hashcode).1 =
        (get_groundtruth texec cache problems hashcode).1 := by
  refine ⟨?_, ?_, ?_⟩
  · intro m hm
    simp [get_groundtruth, hm]
  · intro h0
    simp [get_groundtruth, h0]
  · cases hc : cache hashcode with
    | some m => simp [get_groundtruth, hc]
    | none => simp [get_groundtruth, hc]

/-- Witness for C4: at the empty cache the miss hypothesis holds and the
computed mapping is as stated; at a populated cache the hit hypothesis
holds and the stored mapping is returned. -/
theorem c4_groundtruth_cache_witness :
    ((get_groundtruth texecW (fun _ => none) [("T0", problemW)] "h").1 =
      [("T0", computeOracle texecW problemW)])
      ∧ (get_groundtruth texecW
          (fun _ => some [("T0", computeOracle texecW problemW)])
          [("T0", problemW)] "h" =
        ([("T0", computeOracle texecW problemW)],
          fun _ => some [("T0", computeOracle texecW problemW)])) :=
  ⟨((c4_groundtruth_cache texecW texecW (fun _ => none) [("T0", problemW)]
      "h").2.1 rfl).1,
    (c4_groundtruth_cache texecW texecW
      (fun _ => some [("T0", computeOracle texecW problemW)])
      [("T0", problemW)] "h").1 _ rfl⟩

/-- Helper: the completion indices of the submissions of one task are the
consecutive integers starting at the current counter value of that task,
one per sample of that task. -/
theorem submitAux_filter_cids (problems : String → Problem)
    (samples : List Sample) (cnt : String → Nat) (t : String) :
    (((submitAux problems samples cnt).filter
        (fun s => s.task_id == t)).map (fun s => s.completion_id)) =
      List.range' (cnt t) (samples.countP (fun s => s.task_id == t)) := by
  induction samples generalizing cnt with
  | nil => simp [submitAux]
  | cons s rest ih =>
      simp only [submitAux, List.filter_cons, List.countP_cons]
      by_cases h : s.task_id = t
      · subst h
        simp only [beq_self_eq_true, if_pos, List.map_cons, ih,
          List.countP_cons]
        exact (List.range'_succ _ _ 1).symm
      · have hb : (s.task_id == t) = false := by
          simp [h]
        have hne : ¬ t = s.task_id := fun hh => h hh.symm
        simp only [hb, Bool.false_eq_true, if_false, ih]
        simp only [if_neg hne, Nat.add_zero]

/-- Helper: filtering the check results to one task and reading off the
completion indices gives the same as doing so on the submissions, because
check_correctness copies both the task id of its problem record and the
completion index into its result. -/
theorem runChecks_filter_cids (uc : UntrustedCheck)
    (problems : String → Problem) (expected : String → Oracle)
    (base_only fast_check : Bool)
    (hkey : ∀ tid, (problems tid).task_id = tid)
    (subs : List Submission) (t : String) :
    (((runChecks uc problems expected base_only fast_check subs).filter
        (fun r => r.task_id == t)).map (fun r => r.completion_id)) =
      (subs.filter (fun s => s.task_id == t)).map
        (fun s => s.completion_id) := by
  induction subs with
  | nil => rfl
  | cons s rest ih =>
      simp only [runChecks, List.map_cons, List.filter_cons] at ih ⊢
      have ht : (check_correctness uc s.completion_id (problems s.task_id)
          s.solution (expected s.task_id) base_only fast_check
          s.identifier).task_id = s.task_id := by
        simp [check_correctness, hkey]
      rw [ht]
      by_cases h : s.task_id = t
      · have hb : (s.task_id == t) = true := by simp [h]
        simp only [hb, if_pos, List.map_cons, ih]
        rfl
      · have hb : (s.task_id == t) = false := by simp [h]
        simp only [hb, Bool.false_eq_true, if_false, ih]

/-- Helper: two lists that are permutations of each other, both sorted by a
key that takes no value twice, are equal. -/
theorem eq_of_perm_of_sorted_key {α : Type} (key : α → Nat)
    (l₁ l₂ : List α) (hp : l₁.Perm l₂) (hnd : (l₁.map key).Nodup)
    (hs₁ : l₁.Pairwise (fun a b => key a ≤ key b))
    (hs₂ : l₂.Pairwise (fun a b => key a ≤ key b)) : l₁ = l₂ := by
  haveI : IsAntisymm α (fun a b => key a < key b) :=
    ⟨fun a b h1 h2 => absurd (h1.trans h2) (lt_irrefl _)⟩
  have hnd₂ : (l₂.map key).Nodup := ((hp.map key).nodup_iff).mp hnd
  have hlt₁ : l₁.Pairwise (fun a b => key a < key b) :=
    (hs₁.and (List.pairwise_map.mp hnd)).imp
      (fun h => lt_of_le_of_ne h.1 h.2)
  have hlt₂ : l₂.Pairwise (fun a b => key a < key b) :=
    (hs₂.and (List.pairwise_map.mp hnd₂)).imp
      (fun h => lt_of_le_of_ne h.1 h.2)
  exact List.eq_of_perm_of_sorted hp hlt₁ hlt₂

/-- Helper: the sort of evaluate.py line 187 produces a list sorted by
completion index. -/
theorem sortByCid_sorted (l : List CheckResult) :
    (sortByCid l).Sorted (fun a b => a.completion_id ≤ b.completion_id) := by
  have h := @List.sorted_mergeSort CheckResult
    (fun a b => decide (a.completion_id ≤ b.completion_id))
    (fun a b c hab hbc => by
      simp only [decide_eq_true_eq] at hab hbc ⊢
      exact hab.trans hbc)
    (fun a b => by
      simp only [decide_eq_true_eq, Bool.or_eq_true]
      exact Nat.le_total _ _) l
  exact h.imp (fun hab => of_decide_eq_true hab)

/-- Helper: the sort of evaluate.py line 187 is a permutation of its
input. -/
theorem sortByCid_perm (l : List CheckResult) : (sortByCid l).Perm l :=
  List.mergeSort_perm l _

/-- C1: for every run and every task, the aggregated result sequence is
sorted by completion index ascending; the aggregated per task output is the
same for every completion order of the workers (every permutation of the
submitted checks yields the aggregate of the submission order); and nfiles
equals the number of candidates submitted for that task. -/
theorem c1_aggregation_deterministic (uc : UntrustedCheck)
    (problems : String → Problem) (expected : String → Oracle)
    (base_only fast_check : Bool) (samples : List Sample)
    (arrival : List CheckResult) (t : String)
    (hkey : ∀ tid, (problems tid).task_id = tid)
    (harr : arrival.Perm (runChecks uc problems expected base_only
      fast_check (submissions problems samples))) :
    (sortByCid (taskResults arrival t)).Sorted
        (fun a b => a.completion_id ≤ b.completion_id)
      ∧ aggregate base_only arrival t =
        aggregate base_only (runChecks uc problems expected base_only
          fast_check (submissions problems samples)) t
      ∧ (aggregate base_only arrival t).nfiles =
        samples.countP (fun s => s.task_id == t) := by
  have hfilt : (taskResults arrival t).Perm
      (taskResults (runChecks uc problems expected base_only fast_check
        (submissions problems samples)) t) := harr.filter _
  have hcids : ((taskResults (runChecks uc problems expected base_only
      fast_check (submissions problems samples)) t).map
        (fun r => r.completion_id)) =
      List.range' 0 (samples.countP (fun s => s.task_id == t)) := by
    rw [taskResults, runChecks_filter_cids uc problems expected base_only
      fast_check hkey, submissions, submitAux_filter_cids]
  have hnodC : (((taskResults (runChecks uc problems expected base_only
      fast_check (submissions problems samples)) t).map
        (fun r => r.completion_id))).Nodup := by
    rw [hcids]
    exact List.nodup_range' 0 _
  have hpa := sortByCid_perm (taskResults arrival t)
  have hpc := sortByCid_perm (taskResults (runChecks uc problems expected
    base_only fast_check (submissions problems samples)) t)
  have hperm : (sortByCid (taskResults arrival t)).Perm
      (sortByCid (taskResults (runChecks uc problems expected base_only
        fast_check (submissions problems samples)) t)) :=
    hpa.trans (hfilt.trans hpc.symm)
  have hnodsc : ((sortByCid (taskResults (runChecks uc problems expected
      base_only fast_check (submissions problems samples)) t)).map
        (fun r => r.completion_id)).Nodup :=
    ((hpc.map (fun r => r.completion_id)).nodup_iff).mpr hnodC
  have hnodsa : ((sortByCid (taskResults arrival t)).map
      (fun r => r.completion_id)).Nodup :=
    ((hperm.map (fun r => r.completion_id)).nodup_iff).mpr hnodsc
  have hs1 : (sortByCid (taskResults arrival t)).Pairwise
      (fun a b => a.completion_id ≤ b.completion_id) := sortByCid_sorted _
  have hs2 : (sortByCid (taskResults (runChecks uc problems expected
      base_only fast_check (submissions problems samples)) t)).Pairwise
      (fun a b => a.completion_id ≤ b.completion_id) := sortByCid_sorted _
  have heq : sortByCid (taskResults arrival t) =
      sortByCid (taskResults (runChecks uc problems expected base_only
        fast_check (submissions problems samples)) t) :=
    eq_of_perm_of_sorted_key (fun r => r.completion_id) _ _ hperm hnodsa
      hs1 hs2
  refine ⟨sortByCid_sorted _, ?_, ?_⟩
  · simp only [aggregate, heq]
  · calc (aggregate base_only arrival t).nfiles
        = (sortByCid (taskResults arrival t)).length := rfl
      _ = (taskResults arrival t).length := hpa.length_eq
      _ = (taskResults (runChecks uc problems expected base_only fast_check
            (submissions problems samples)) t).length := hfilt.length_eq
      _ = ((taskResults (runChecks uc problems expected base_only fast_check
            (submissions problems samples)) t).map
              (fun r => r.completion_id)).length :=
          (List.length_map _ _).symm
      _ = (List.range' 0
            (samples.countP (fun s => s.task_id == t))).length := by
          rw [hcids]
      _ = samples.countP (fun s => s.task_id == t) := List.length_range' _ _ _

/-- Witness for C1: three candidates over two tasks, the workers complete
in reversed order, and the aggregated candidate count of the first task is
the number of candidates submitted for that task, namely 2. -/
theorem c1_aggregation_witness :
    ((aggregate false ((runChecks ucW problemsW expectedW false false
        (submissions problemsW samplesW)).reverse) "T1").nfiles =
      samplesW.countP (fun s => s.task_id == "T1"))
      ∧ samplesW.countP (fun s => s.task_id == "T1") = 2 :=
  ⟨(c1_aggregation_deterministic ucW problemsW expectedW false false
      samplesW _ "T1" (fun _ => rfl) (List.reverse_perm _)).2.2, by decide⟩

/-- C6: after submitting all candidates and before collecting any result,
the dispatcher halts fatally unless the number of submitted candidates
equals the number of distinct run identifiers and the number of distinct
tasks with at least one candidate equals the number of problems; when the
guard passes, the per task candidate counts sum to the total number of
submitted candidates and every problem has at least one candidate. -/
theorem c6_dispatch_invariants (samples : List Sample)
    (problem_ids : List String)
    (hmem : ∀ s ∈ samples, s.task_id ∈ problem_ids)
    (hnd : problem_ids.Nodup)
    (hok : dispatchAsserts samples problem_ids = true) :
    (∑ p in problem_ids.toFinset,
        samples.countP (fun s => s.task_id == p)) = samples.length
      ∧ ∀ p ∈ problem_ids,
        0 < samples.countP (fun s => s.task_id == p) := by
  have hok2 : ((samples.map (fun s => s.task_id)).dedup).length =
      problem_ids.length := by
    simp only [dispatchAsserts, Bool.and_eq_true, beq_iff_eq,
      counterKeys] at hok
    exact hok.2
  have hsub : (samples.map (fun s => s.task_id)).toFinset ⊆
      problem_ids.toFinset := by
    intro x hx
    rw [List.mem_toFinset] at hx ⊢
    obtain ⟨s, hs, rfl⟩ := List.mem_map.mp hx
    exact hmem s hs
  have hcard1 : (samples.map (fun s => s.task_id)).toFinset.card =
      ((samples.map (fun s => s.task_id)).dedup).length :=
    List.card_toFinset _
  have hcard2 : problem_ids.toFinset.card = problem_ids.length :=
    List.toFinset_card_of_nodup hnd
  have hfeq : (samples.map (fun s => s.task_id)).toFinset =
      problem_ids.toFinset := by
    apply Finset.eq_of_subset_of_card_le hsub
    rw [hcard1, hcard2, hok2]
  have hcount : ∀ p, samples.countP (fun s => s.task_id == p) =
      (samples.map (fun s => s.task_id)).count p := by
    intro p
    rw [List.count_eq_countP, List.countP_map]
    rfl
  constructor
  · calc (∑ p in problem_ids.toFinset,
          samples.countP (fun s => s.task_id == p))
        = ∑ p in (samples.map (fun s => s.task_id)).toFinset,
            samples.countP (fun s => s.task_id == p) := by rw [hfeq]
      _ = ∑ p in (samples.map (fun s => s.task_id)).toFinset,
            (samples.map (fun s => s.task_id)).count p :=
          Finset.sum_congr rfl (fun p _ => hcount p)
      _ = (samples.map (fun s => s.task_id)).length :=
          List.sum_toFinset_count_eq_length _
      _ = samples.length := List.length_map _ _
  · intro p hp
    have hp2 : p ∈ (samples.map (fun s => s.task_id)).toFinset := by
      rw [hfeq, List.mem_toFinset]
      exact hp
    rw [List.mem_toFinset, List.mem_map] at hp2
    obtain ⟨s, hs, hsp⟩ := hp2
    exact List.countP_pos_iff.mpr ⟨s, hs, by simp [hsp]⟩

/-- Witness for C6: three candidates over the two problems T1 and T2 pass
the dispatch guard; the counts 2 and 1 sum to 3 and both problems have a
candidate. -/
theorem c6_dispatch_witness :
    ((∑ p in (["T1", "T2"] : List String).toFinset,
        samplesW.countP (fun s => s.task_id == p)) = samplesW.length
      ∧ ∀ p ∈ (["T1", "T2"] : List String),
        0 < samplesW.countP (fun s => s.task_id == p)) :=
  c6_dispatch_invariants samplesW ["T1", "T2"] (by decide) (by decide)
    (by decide)

/-- Helper: membership in the guarded filterMap that builds a pass at k
mapping. -/
theorem mem_filterMap_guard {β : Type} (p : Nat → Prop) [DecidablePred p]
    (f : Nat → β) (ks : List Nat) (k : Nat) (v : β) :
    ((k, v) ∈ ks.filterMap (fun u => if p u then some (u, f u) else none))
      ↔ (k ∈ ks ∧ p k ∧ v = f k) := by
  induction ks with
  | nil => simp
  | cons a l ih =>
      simp only [List.filterMap_cons]
      by_cases h : p a
      · rw [if_pos h]
        simp only [List.mem_cons, ih, Prod.mk.injEq]
        constructor
        · rintro (⟨rfl, rfl⟩ | ⟨hm, hp, hv⟩)
          · exact ⟨Or.inl rfl, h, rfl⟩
          · exact ⟨Or.inr hm, hp, hv⟩
        · rintro ⟨rfl | hm, hp, hv⟩
          · exact Or.inl ⟨rfl, hv⟩
          · exact Or.inr ⟨hm, hp, hv⟩
      · rw [if_neg h, ih]
        constructor
        · rintro ⟨hm, hp, hv⟩
          exact ⟨List.mem_cons_of_mem a hm, hp, hv⟩
        · rintro ⟨hm, hp, hv⟩
          rcases List.mem_cons.mp hm with rfl | hm2
          · exact absurd hp h
          · exact ⟨hm2, hp, hv⟩

/-- Helper: a bound is below the minimum of a numpy array exactly when it
is below every entry. -/
theorem le_npMin_iff (total : List Nat) (m k : Nat)
    (h : npMin total = some m) : k ≤ m ↔ ∀ n ∈ total, k ≤ n :=
  List.le_min?_iff (fun _ _ _ => Nat.le_min) h

/-- C2: for the base suite the evaluator computes, for each k among 1, 10
and 100, the mean over all problems of the unbiased pass at k estimates,
and k is present in the output exactly when every task candidate count is
at least k (equivalently, the minimum count is at least k). -/
theorem c2_base_pass_inclusion (total correct : List Nat) (k : Nat)
    (hne : total ≠ []) :
    ∃ L, pass_at_k_base total correct = some L
      ∧ ((∃ v, (k, v) ∈ L) ↔ (k ∈ [1, 10, 100] ∧ ∀ n ∈ total, k ≤ n))
      ∧ ∀ v, (k, v) ∈ L →
        v = npMean (estimate_pass_at_k total correct k) := by
  obtain ⟨m, hm⟩ : ∃ m, npMin total = some m := by
    cases total with
    | nil => exact absurd rfl hne
    | cons a l => exact ⟨_, rfl⟩
  refine ⟨[1, 10, 100].filterMap (fun u =>
    if u ≤ m then some (u, npMean (estimate_pass_at_k total correct u))
    else none), ?_, ?_, ?_⟩
  · simp only [pass_at_k_base, hm]
  · constructor
    · rintro ⟨v, hv⟩
      obtain ⟨hk, hkm, _⟩ :=
        (mem_filterMap_guard (fun u => u ≤ m) _ _ _ _).mp hv
      exact ⟨hk, (le_npMin_iff total m k hm).mp hkm⟩
    · rintro ⟨hk, hall⟩
      exact ⟨_, (mem_filterMap_guard (fun u => u ≤ m) _ _ _ _).mpr
        ⟨hk, (le_npMin_iff total m k hm).mpr hall, rfl⟩⟩
  · intro v hv
    exact ((mem_filterMap_guard (fun u => u ≤ m) _ _ _ _).mp hv).2.2

/-- Witness for C2: two tasks with 2 candidates each, 1 and 2 base
successes; the hypotheses hold and the pass at 1 value evaluates to the
mean of the two unbiased estimates, namely 3 / 4. -/
theorem c2_base_pass_witness :
    (∃ L, pass_at_k_base [2, 2] [1, 2] = some L
      ∧ ((∃ v, (1, v) ∈ L) ↔
          (1 ∈ [1, 10, 100] ∧ ∀ n ∈ [2, 2], 1 ≤ n))
      ∧ ∀ v, (1, v) ∈ L →
        v = npMean (estimate_pass_at_k [2, 2] [1, 2] 1))
      ∧ npMean (estimate_pass_at_k [2, 2] [1, 2] 1) = 3 / 4 :=
  ⟨c2_base_pass_inclusion [2, 2] [1, 2] 1 (by decide), by
    norm_num [npMean, estimate_pass_at_k, estimator]⟩

/-- C3: in the plus pass a candidate counts as a success exactly when the
plus status and the base status at the same completion index both equal
SUCCESS (the chained comparison); k among 1, 10, 100 is included exactly
when every task candidate count is at least k, with the mean estimate as
value; the new_correct list receives one entry per task with a nonempty
plus result list and no entry for the others; and the plus section is
computed only when new_correct is nonempty. -/
theorem c3_plus_pass (evals : List AggregatedTaskResult)
    (total new_correct : List Nat) (k : Nat) (p b : Result) (v : ℚ) :
    (plusAndBaseSuccess p b = true ↔ (p.1 = SUCCESS ∧ b.1 = SUCCESS))
      ∧ (((k, v) ∈ pass_at_k_plus total new_correct) ↔
          (k ∈ [1, 10, 100] ∧ (∀ n ∈ total, k ≤ n)
            ∧ v = npMean (estimate_pass_at_k total new_correct k)))
      ∧ ((new_correct_of evals).length =
          evals.countP (fun r => !r.plus.isEmpty))
      ∧ plus_pass_section total [] = none
      ∧ ∀ nc, nc ≠ [] → plus_pass_section total nc =
          some (pass_at_k_plus total nc) := by
  refine ⟨?_, ?_, ?_, rfl, ?_⟩
  · simp only [plusAndBaseSuccess, Bool.and_eq_true, beq_iff_eq]
    constructor
    · rintro ⟨h1, h2⟩
      exact ⟨h1.trans h2, h2⟩
    · rintro ⟨h1, h2⟩
      exact ⟨h1.trans h2.symm, h2⟩
  · have h1 := mem_filterMap_guard
      (fun u => (total.all (fun n => decide (u ≤ n))) = true)
      (fun u => npMean (estimate_pass_at_k total new_correct u))
      [1, 10, 100] k v
    simp only [pass_at_k_plus]
    rw [h1]
    simp only [List.all_eq_true, decide_eq_true_eq]
  · simp only [new_correct_of, List.length_map]
    exact (List.countP_eq_length_filter _ _).symm
  · intro nc hnc
    cases nc with
    | nil => exact absurd rfl hnc
    | cons a t => rfl

/-- Witness for C3: the chained comparison predicate evaluated at a pair
of concrete passing results. -/
theorem c3_plus_pass_witness :
    plusAndBaseSuccess (SUCCESS, [true, true]) (SUCCESS, [true, true])
        = true
      ↔ (((SUCCESS, [true, true]) : Result).1 = SUCCESS
        ∧ (((SUCCESS, [true, true]) : Result).1 = SUCCESS)) :=
  (c3_plus_pass [] [] [] 1 (SUCCESS, [true, true]) (SUCCESS, [true, true])
    0).1

/-- C5: when a result file exists at the derived result path and the force
flag is not set, the evaluator returns the adapted stored document; the
outcome is identical for every checker, executor, oracle cache, problem
set and sample list, so no oracle is computed and no check is submitted,
and the aggregated statistics are computed from the stored file contents;
re running against the unchanged file therefore reproduces the stored
document and its statistics exactly. -/
theorem c5_resume_short_circuit (stored : ResultsDoc)
    (uc uc2 : UntrustedCheck) (texec texec2 : TrustedExec)
    (cache cache2 : OracleCache) (problems problems2 : String → Problem)
    (problems_list problems_list2 : List (String × Problem))
    (samples samples2 : List Sample) (date date2 ph ph2 : String)
    (base_only bo2 fast_check fc2 : Bool) :
    evaluate_results (some stored) false uc texec cache problems
        problems_list samples date ph base_only fast_check = stored
      ∧ evaluate_results (some stored) false uc texec cache problems
          problems_list samples date ph base_only fast_check =
        evaluate_results (some stored) false uc2 texec2 cache2 problems2
          problems_list2 samples2 date2 ph2 bo2 fc2
      ∧ statsOf (evaluate_results (some stored) false uc texec cache
          problems problems_list samples date ph base_only fast_check) =
        statsOf stored :=
  ⟨rfl, rfl, rfl⟩

/-- Helper: appending one bak suffix first and then several more is the
same as appending one more suffix in total. -/
theorem appendBaks_shift (path : String) (i : Nat) :
    appendBaks (path ++ ".bak") i = appendBaks path (i + 1) := by
  induction i with
  | zero => rfl
  | succ n ih => simp only [appendBaks, ih]

/-- Helper: the length of a path with bak suffixes appended. -/
theorem appendBaks_length (path : String) (j : Nat) :
    (appendBaks path j).length = path.length + 4 * j := by
  induction j with
  | zero => simp [appendBaks]
  | succ n ih =>
      simp only [appendBaks, String.length_append, ih]
      have h4 : (".bak" : String).length = 4 := rfl
      rw [h4]
      omega

/-- Helper: a path with at least one bak suffix differs from the bare
path. -/
theorem appendBaks_ne (path : String) (j : Nat) (hj : 1 ≤ j) :
    appendBaks path j ≠ path := by
  intro h
  have hlen := congrArg String.length h
  rw [appendBaks_length] at hlen
  omega

/-- Helper: a successful backup path search returns a free path obtained
from the start path by appending bak suffixes, every earlier candidate
being occupied. -/
theorem findBackupPath_spec (isfile : String → Bool) (q : String)
    (fuel : Nat) (res : String)
    (h : findBackupPath isfile q fuel = some res) :
    isfile res = false ∧ ∃ i, res = appendBaks q i
      ∧ ∀ jj, jj < i → isfile (appendBaks q jj) = true := by
  induction fuel generalizing q with
  | zero =>
      simp only [findBackupPath] at h
      by_cases hq : isfile q = true
      · rw [if_pos hq] at h
        exact absurd h (by simp)
      · rw [if_neg hq] at h
        injection h with h2
        subst h2
        exact ⟨by simpa using hq, 0, rfl, fun jj hjj => absurd hjj (by omega)⟩
  | succ n ih =>
      simp only [findBackupPath] at h
      by_cases hq : isfile q = true
      · rw [if_pos hq] at h
        obtain ⟨hfree, i, hi, hint⟩ := ih (q ++ ".bak") h
        refine ⟨hfree, i + 1, by rw [hi, appendBaks_shift], ?_⟩
        intro jj hjj
        cases jj with
        | zero => exact hq
        | succ kk =>
            rw [← appendBaks_shift]
            exact hint kk (by omega)
      · rw [if_neg hq] at h
        injection h with h2
        subst h2
        exact ⟨by simpa using hq, 0, rfl, fun jj hjj => absurd hjj (by omega)⟩

/-- C9: with the force flag set, an existing result file and the prompt
answered with y, the existing file is renamed in full to a backup path
obtained by appending bak suffixes until an unused name is found (every
earlier candidate being in use), the freshly computed results are then
written to the result path, every other path is untouched and the pre
existing content survives in full at the backup path; with the answer n
the file system is unchanged, so the stored file is never partially
overwritten in place. -/
theorem c9_forced_backup (fs : FileSys) (result_path fresh old : String)
    (fuel : Nat) (fs2 : FileSys)
    (hold : fs result_path = some old)
    (hres : forcedOverwrite fs result_path "y" fresh fuel = some fs2) :
    (∃ new_path j, 1 ≤ j ∧ new_path = appendBaks result_path j
      ∧ fs new_path = none
      ∧ (∀ i, 1 ≤ i → i < j →
          (fs (appendBaks result_path i)).isSome = true)
      ∧ fs2 result_path = some fresh
      ∧ fs2 new_path = some old
      ∧ ∀ x, x ≠ result_path → x ≠ new_path → fs2 x = fs x)
      ∧ forcedOverwrite fs result_path "n" fresh fuel = some fs := by
  refine ⟨?_, rfl⟩
  rw [forcedOverwrite, if_pos rfl] at hres
  cases hfind : findBackupPath (fun q => (fs q).isSome)
      (result_path ++ ".bak") fuel with
  | none => rw [hfind] at hres; exact absurd hres (by simp)
  | some new_path =>
      rw [hfind] at hres
      injection hres with hres2
      obtain ⟨hfree, i, hi, hint⟩ :=
        findBackupPath_spec (fun q => (fs q).isSome) (result_path ++ ".bak")
          fuel new_path hfind
      rw [appendBaks_shift] at hi
      have hne : new_path ≠ result_path := by
        rw [hi]
        exact appendBaks_ne result_path (i + 1) (by omega)
      refine ⟨new_path, i + 1, by omega, hi, ?_, ?_, ?_, ?_, ?_⟩
      · have : (fs new_path).isSome = false := hfree
        cases hcase : fs new_path with
        | none => rfl
        | some c => rw [hcase] at this; simp at this
      · intro idx h1 h2
        have hidx : idx = (idx - 1) + 1 := by omega
        rw [hidx, ← appendBaks_shift]
        exact hint (idx - 1) (by omega)
      · rw [← hres2]
        simp
      · rw [← hres2]
        simp only [if_neg hne, if_pos rfl]
        exact hold
      · intro x hx1 hx2
        rw [← hres2]
        simp only [if_neg hx1, if_neg hx2]

/-- Witness for C9: a file system with the result file and one existing
backup; the search skips the occupied backup name, the old content moves
in full to the doubly suffixed backup path and the fresh results land at
the result path. -/
theorem c9_forced_backup_witness :
    ∃ g, forcedOverwrite fsW "res" "y" "fresh" 3 = some g
      ∧ ((∃ new_path j, 1 ≤ j ∧ new_path = appendBaks "res" j
          ∧ fsW new_path = none
          ∧ (∀ i, 1 ≤ i → i < j →
              (fsW (appendBaks "res" i)).isSome = true)
          ∧ g "res" = some "fresh"
          ∧ g new_path = some "old"
          ∧ ∀ x, x ≠ "res" → x ≠ new_path → g x = fsW x)
        ∧ forcedOverwrite fsW "res" "n" "fresh" 3 = some fsW) :=
  ⟨_, rfl, c9_forced_backup fsW "res" "fresh" "old" 3 _ rfl rfl⟩

end EvalPlus
